import Mathlib

/-!
Shallow embedding of the jobradar core pipeline: the listing model and its
content hash (src/jobradar/core/models.py), normalization
(src/jobradar/core/normalize.py), deduplication (src/jobradar/core/dedupe.py),
visa scoring (src/jobradar/core/visa_scoring.py), and the relevance and
resume-fit filters defined inside main in src/jobradar/__main__.py.

Text is modelled as Lean String over ASCII. The Python string operations
str.lower, str.strip, str.title, substring containment, and the small regex
fragment the filters use (word-bounded literal alternatives, with one
optional-any-character form) are given explicit executable definitions.
-/

namespace JobRadar

/-- Python str.lower, ASCII model (non-ASCII characters pass through, as the
repository only feeds ASCII keyword tables through it). -/
def pyLower (s : String) : String := ⟨s.data.map Char.toLower⟩

/-- Drop leading and trailing whitespace from a character list. -/
def stripL (l : List Char) : List Char :=
  ((l.dropWhile Char.isWhitespace).reverse.dropWhile Char.isWhitespace).reverse

/-- Python str.strip with no argument. -/
def pyStrip (s : String) : String := ⟨stripL s.data⟩

/-- Collapse every maximal whitespace run to a single space: the regex
substitution of one-or-more whitespace by a single space in _clean_text. -/
def collapseWS : List Char → List Char
  | [] => []
  | [c] => if c.isWhitespace then [' '] else [c]
  | c :: d :: rest =>
    if c.isWhitespace then
      (if d.isWhitespace then collapseWS (d :: rest) else ' ' :: collapseWS (d :: rest))
    else c :: collapseWS (d :: rest)

/-- normalize._clean_text: collapse whitespace runs, then strip. -/
def cleanText (s : String) : String := ⟨stripL (collapseWS s.data)⟩

/-- Python substring containment, the in operator on str. -/
def containsSub (pat text : List Char) : Bool :=
  text.tails.any (fun t => pat.isPrefixOf t)

/-- Helper for Python str.title: the flag records whether the previous
character was alphabetic. -/
def titleAux : Bool → List Char → List Char
  | _, [] => []
  | prev, c :: rest =>
    if c.isAlpha then (if prev then c.toLower else c.toUpper) :: titleAux true rest
    else c :: titleAux false rest

/-- Python str.title: uppercase the first letter of each alphabetic run and
lowercase the rest of the run. -/
def pyTitle (s : String) : String := ⟨titleAux false s.data⟩

/-- Stand-in for the hexdigest of hashlib.md5 at models.py line 34. Every
claim below uses only that this is a deterministic function of the key
string; we render each code point as six fixed-width hex digits, which like
MD5 is stable and, being injective, collision-free. -/
def md5Hex (s : String) : String :=
  ⟨(s.data.map (fun c =>
      List.replicate (6 - (Nat.toDigits 16 c.toNat).length) '0'
        ++ Nat.toDigits 16 c.toNat)).flatten⟩

/-- models.JobListing, with the date as an abstract day number. -/
structure JobListing where
  source : String
  title : String
  company : String
  location : String
  url : String
  date_found : Nat
  summary : String := ""
  tags : List String := []
  visa_score : Int := -1
  visa_reason : String := ""
  hash_id : String := ""
deriving DecidableEq, Repr

/-- models.JobListing._compute_hash: key is the stripped, lowered url when
non-empty, otherwise the lowered title-company-location concatenation. -/
def computeHash (title company location url : String) : String :=
  let k := pyLower (pyStrip url)
  md5Hex (if k = "" then pyLower (title ++ "|" ++ company ++ "|" ++ location) else k)

/-- models.JobListing.__post_init__ composed with the dataclass constructor,
for the construction path the normalizer uses (no hash_id supplied, so the
hash is always computed). -/
def mkJobListing (source title company location url : String) (date_found : Nat)
    (summary : String) (tags : List String) : JobListing :=
  { source := source, title := title, company := company, location := location,
    url := url, date_found := date_found, summary := summary, tags := tags,
    hash_id := computeHash title company location url }

/-- normalize._LOCATION_MAP in dict insertion order. -/
def LOCATION_MAP : List (String × String) :=
  [("adelaide", "Adelaide"), ("sa", "Adelaide"), ("south australia", "Adelaide"),
   ("melbourne", "Melbourne"), ("vic", "Melbourne"), ("victoria", "Melbourne"),
   ("remote", "Remote"), ("hybrid", "Hybrid"), ("australia", "Australia")]

/-- normalize._normalize_location, generalized over the alias table so that
order (in)dependence of the table can be stated. -/
def normalizeLocationWith (tbl : List (String × String)) (raw : String) : String :=
  let key := pyLower (pyStrip raw)
  match tbl.find? (fun e => containsSub e.1.data key.data) with
  | some e => e.2
  | none => pyTitle (pyStrip raw)

/-- normalize._normalize_location against the fixed alias table. -/
def normalizeLocation : String → String := normalizeLocationWith LOCATION_MAP

/-- normalize._LEVEL_KEYWORDS. -/
def LEVEL_KEYWORDS : List (String × List String) :=
  [("Graduate", ["graduate", "grad "]),
   ("Junior", ["junior", "jr "]),
   ("Entry", ["entry", "entry-level", "entry level"]),
   ("Associate", ["associate"]),
   ("EarlyCareer", ["early career", "cadet"])]

/-- normalize._ROLE_KEYWORDS. -/
def ROLE_KEYWORDS : List (String × List String) :=
  [("SWE", ["software engineer", "software developer", "backend", "frontend",
            "full stack", "fullstack", "web developer", "devops",
            "platform engineer"]),
   ("Architecture", ["architect"]),
   ("Program", ["graduate program", "graduate programme", "rotation program",
                "rotational", "internship", "cadet program"])]

/-- normalize._tag_listing: every tag whose phrase list has a substring match
in the lowered title-space-summary text, level table first then role table. -/
def tagListing (title summary : String) : List String :=
  ((LEVEL_KEYWORDS.filter
      (fun kv => kv.2.any
        (fun p => containsSub p.data (pyLower (title ++ " " ++ summary)).data))).map
    (fun kv => kv.1))
  ++ ((ROLE_KEYWORDS.filter
      (fun kv => kv.2.any
        (fun p => containsSub p.data (pyLower (title ++ " " ++ summary)).data))).map
    (fun kv => kv.1))

/-- A loosely typed raw record from a connector; a missing key is none.
Only the five keys normalize reads are modelled. -/
structure RawRecord where
  title : Option String := none
  company : Option String := none
  location : Option String := none
  url : Option String := none
  summary : Option String := none
deriving DecidableEq

/-- normalize.normalize; the impure call date.today() is passed in as the day
number today. -/
def normalize (raw : RawRecord) (source : String) (today : Nat) : JobListing :=
  let title := cleanText (raw.title.getD "Unknown")
  let company := cleanText (raw.company.getD "Unknown")
  let location := normalizeLocation (raw.location.getD "")
  let url := pyStrip (raw.url.getD "")
  let summary := cleanText (raw.summary.getD "")
  let tags := tagListing title summary
  mkJobListing source title company location url today ⟨summary.data.take 500⟩ tags

/-- visa_scoring._HARD_NEGATIVES. -/
def HARD_NEGATIVES : List (String × Int × String) :=
  [("australian citizen", -4, "Australian citizen required"),
   ("must be a citizen", -4, "Australian citizen required"),
   ("citizen only", -4, "Citizen only"),
   ("citizenship required", -4, "Citizenship required"),
   ("nv1", -4, "NV1 clearance required"),
   ("nv2", -4, "NV2 clearance required"),
   ("top secret", -4, "Security clearance required"),
   ("secret clearance", -4, "Security clearance required"),
   ("baseline clearance", -3, "Baseline clearance required"),
   ("security clearance", -3, "Security clearance required"),
   ("pr only", -3, "Permanent residents only"),
   ("permanent resident only", -3, "Permanent residents only"),
   ("must hold permanent", -3, "Permanent residence required")]

/-- visa_scoring._SOFT_NEGATIVES. -/
def SOFT_NEGATIVES : List (String × Int × String) :=
  [("full working rights", -1, "Full working rights mentioned (may exclude temporary visas)"),
   ("permanent work rights", -2, "Permanent work rights required"),
   ("must have full working rights", -2, "Full working rights required")]

/-- visa_scoring._POSITIVES. -/
def POSITIVES : List (String × Int × String) :=
  [("visa sponsorship", 3, "Visa sponsorship available"),
   ("sponsorship available", 3, "Visa sponsorship available"),
   ("sponsor visa", 3, "Visa sponsorship available"),
   ("international candidates", 2, "International candidates welcome"),
   ("international students", 2, "International students welcome"),
   ("welcome international", 2, "International candidates welcome"),
   ("temporary visa", 2, "Temporary visa accepted"),
   ("temporary work visa", 2, "Temporary visa accepted"),
   ("work rights in australia", 1, "Work rights in Australia mentioned"),
   ("485", 2, "485 visa mentioned"),
   ("graduate visa", 2, "Graduate visa (485) mentioned")]

/-- Entries of one signal table whose phrase is a substring of the text. -/
def firedEntries (tbl : List (String × Int × String)) (text : List Char) :
    List (String × Int × String) :=
  tbl.filter (fun e => containsSub e.1.data text)

/-- The lowered title-space-summary text score_job scans. -/
def visaText (title summary : String) : List Char :=
  (pyLower (title ++ " " ++ summary)).data

/-- Accumulated score of score_job before clamping: neutral base 2 plus the
deltas of every fired entry of the three tables. -/
def visaRawScore (title summary : String) : Int :=
  2 + ((firedEntries HARD_NEGATIVES (visaText title summary)).map (fun e => e.2.1)).sum
    + ((firedEntries SOFT_NEGATIVES (visaText title summary)).map (fun e => e.2.1)).sum
    + ((firedEntries POSITIVES (visaText title summary)).map (fun e => e.2.1)).sum

/-- Reason labels of score_job in table order, negatives tagged with a minus
marker and positives with a plus marker. -/
def visaReasons (title summary : String) : List String :=
  ((firedEntries HARD_NEGATIVES (visaText title summary)).map (fun e => "[-] " ++ e.2.2))
  ++ ((firedEntries SOFT_NEGATIVES (visaText title summary)).map (fun e => "[-] " ++ e.2.2))
  ++ ((firedEntries POSITIVES (visaText title summary)).map (fun e => "[+] " ++ e.2.2))

/-- visa_scoring.score_job: attach the clamped score and the joined reason
string, returning the listing. -/
def scoreJob (j : JobListing) : JobListing :=
  { j with
    visa_score := max 0 (min 5 (visaRawScore j.title j.summary)),
    visa_reason :=
      if visaReasons j.title j.summary = [] then "No specific signals found"
      else String.intercalate "; " (visaReasons j.title j.summary) }

/-- visa_scoring.score_all. -/
def scoreAll (jobs : List JobListing) : List JobListing := jobs.map scoreJob

/-- Persisted dedupe state: none models a missing state file, some hs the
stored array of hash ids (read as a set; the sorted write order affects only
the serialization, not the set it denotes). -/
abbrev DedupState := Option (List String)

/-- dedupe._load_seen: a missing (or unreadable) state file is the empty set. -/
def loadSeen : DedupState → List String
  | none => []
  | some hs => hs

/-- Main loop of dedupe.deduplicate: scan the listings in order, keeping a
listing when its hash is in neither the persisted set nor the session set;
returns the fresh listings and the final session set. -/
def dedupLoop (seen : List String) : List JobListing → List String →
    List JobListing × List String
  | [], session => ([], session)
  | job :: rest, session =>
    if job.hash_id ∈ seen ∨ job.hash_id ∈ session then dedupLoop seen rest session
    else
      let r := dedupLoop seen rest (job.hash_id :: session)
      (job :: r.1, r.2)

/-- dedupe.deduplicate: the fresh listings plus the state after the call; the
state file is rewritten with the union only when persist is set and at least
one new hash was accepted. -/
def deduplicate (st : DedupState) (listings : List JobListing) (persist : Bool) :
    List JobListing × DedupState :=
  let r := dedupLoop (loadSeen st) listings []
  (r.1, if persist = true ∧ r.2 ≠ [] then some (loadSeen st ++ r.2) else st)

/-- dedupe.reset_state: delete the state file whatever it held. -/
def resetState (_ : DedupState) : DedupState := none

/-- Token of the tiny regex fragment the patterns in main need: literal
characters plus the optional-any form written dot question mark. -/
inductive RTok where
  | lit (c : Char)
  | anyOpt
deriving DecidableEq

/-- Word character in the sense of regex word boundaries, ASCII. -/
def isWordChar (c : Char) : Bool := c.isAlphanum || c == '_'

/-- A word boundary may sit after this character (or at the text start). -/
def okBoundary : Option Char → Bool
  | none => true
  | some c => !isWordChar c

/-- A word boundary may sit before this remainder (or at the text end). -/
def okAfter : List Char → Bool
  | [] => true
  | c :: _ => !isWordChar c

/-- All remainders of the text after matching the token list at its front. -/
def rMatch : List RTok → List Char → List (List Char)
  | [], t => [t]
  | RTok.lit _ :: _, [] => []
  | RTok.lit c :: ps, d :: t => if d == c then rMatch ps t else []
  | RTok.anyOpt :: ps, t =>
    rMatch ps t ++ (match t with | [] => [] | _ :: t2 => rMatch ps t2)

/-- Does the pattern match at the front of the text with a word boundary
right after the matched part? -/
def wbAt (p : List RTok) (t : List Char) : Bool := (rMatch p t).any okAfter

/-- Word-bounded regex search: try every position of the text, requiring a
boundary before the match; prev is the character left of the current rest. -/
def wbSearch (p : List RTok) : Option Char → List Char → Bool
  | prev, [] => okBoundary prev && wbAt p []
  | prev, c :: rest => (okBoundary prev && wbAt p (c :: rest)) || wbSearch p (some c) rest

/-- re.search of an alternation of word-bounded patterns over the text of a
string (the callers pass already lowered text, as main does). -/
def reFind (alts : List (List RTok)) (s : String) : Bool :=
  alts.any (fun p => wbSearch p none s.data)

/-- A plain literal pattern. -/
def litP (s : String) : List RTok := s.data.map RTok.lit

/-- Keywords of main._LEVEL_PATTERNS, each compiled to a word-bounded regex. -/
def LEVEL_PATTERNS : List (List RTok) :=
  ["graduate", "junior", "entry level", "entry-level", "associate",
   "early career", "cadet", "intern"].map litP

/-- Keywords of main._TECH_ROLE_PATTERNS. -/
def TECH_ROLE_PATTERNS : List (List RTok) :=
  ["software engineer", "software developer", "software engineering",
   "developer", "devops", "backend", "frontend", "full stack", "fullstack",
   "web developer", "mobile developer", "cloud engineer", "platform engineer",
   "data engineer", "data analyst", "data scientist", "data analytics",
   "cyber", "cybersecurity", "information security", "network engineer",
   "systems engineer", "computer science", "it graduate", "it program",
   "architect",
   "technology graduate", "tech graduate", "technology program",
   "technology internship", "tech internship",
   "software", "technology", "data", "analytics", "digital",
   "information technology", "information systems"].map litP

/-- Alternatives of main._NON_IT_TITLE_WORDS. -/
def NON_IT_TITLE_WORDS : List (List RTok) :=
  ["civil", "mechanical", "hydro", "structural", "geotechnical", "mining",
   "chemical", "electrical wiring", "audit", "accounting", "actuari",
   "banking", "finance", "financial planning", "wealth", "insurance",
   "legal", "law", "nursing", "medical", "pharmacy", "physiother",
   "dental", "clinical"].map litP

/-- Alternatives of main._SENIOR_TITLE_WORDS; the inner word boundary after
sr coincides with the outer one, and mid dot-question level carries the
optional-any token. -/
def SENIOR_TITLE_WORDS : List (List RTok) :=
  (["senior", "sr", "lead", "principal", "staff", "manager", "director",
    "head of", "vp", "vice president", "chief", "experienced"].map litP)
  ++ [litP "mid" ++ [RTok.anyOpt] ++ litP "level"]

/-- Alternatives of main._STRONG_TECH_TITLES. -/
def STRONG_TECH_TITLES : List (List RTok) :=
  [litP "software engineer", litP "software developer",
   litP "full" ++ [RTok.anyOpt] ++ litP "stack", litP "fullstack",
   litP "devops", litP "backend", litP "frontend", litP "web developer",
   litP "mobile developer", litP "data engineer", litP "data analyst",
   litP "data scientist", litP "cloud engineer", litP "platform engineer",
   litP "machine learning engineer", litP "ml engineer",
   litP "systems engineer", litP "network engineer", litP "cyber",
   litP "cybersecurity", litP "developer", litP "programmer"]

/-- Alternatives of main._RESUME_HARD_EXCLUDE; inner word boundaries
coincide with the outer ones. -/
def RESUME_HARD_EXCLUDE : List (List RTok) :=
  [litP "ios", litP "swift", litP "objective" ++ [RTok.anyOpt] ++ litP "c",
   litP "ruby on rails", litP "laravel", litP "php",
   litP "mulesoft", litP "salesforce", litP "zoho", litP "deluge",
   litP "objectstar", litP "cobol", litP "abap", litP "mainframe",
   litP "flutter", litP "dart", litP "kotlin", litP "embedded",
   litP "firmware", litP "fpga", litP "vhdl", litP "verilog",
   litP "sap", litP "servicenow", litP "pega", litP "mendix",
   litP "outsystems"]

/-- main._is_relevant, the relevance filter; patterns compiled with the
ignore-case flag run here over already lowered text, as the Python code
lowers title and summary before searching. -/
def isRelevant (j : JobListing) : Bool :=
  let title := pyLower j.title
  let summary := pyLower j.summary
  let combined := title ++ " " ++ summary
  let hasNonIT := reFind NON_IT_TITLE_WORDS title
  let hasSenior := reFind SENIOR_TITLE_WORDS title
  if hasNonIT || hasSenior then false
  else if j.source == "CompanyCareers" || j.source == "GovtCareers" then
    TECH_ROLE_PATTERNS.any (fun p => wbSearch p none combined.data)
  else
    let hasLevel := LEVEL_PATTERNS.any (fun p => wbSearch p none combined.data)
    let hasRole := TECH_ROLE_PATTERNS.any (fun p => wbSearch p none combined.data)
    let strongTech := reFind STRONG_TECH_TITLES title
    (hasRole || strongTech) && (hasLevel || strongTech)

/-- main._fits_resume, the resume-fit filter: pass iff no hard-excluded
technology term occurs word-bounded in the lowered title-space-summary. -/
def fitsResume (j : JobListing) : Bool :=
  !reFind RESUME_HARD_EXCLUDE (pyLower (j.title ++ " " ++ j.summary))

/-! Projection lemmas for the normalizer, all definitional. -/

theorem normalize_title (raw : RawRecord) (s : String) (d : Nat) :
    (normalize raw s d).title = cleanText (raw.title.getD "Unknown") := rfl

theorem normalize_company (raw : RawRecord) (s : String) (d : Nat) :
    (normalize raw s d).company = cleanText (raw.company.getD "Unknown") := rfl

theorem normalize_location_eq (raw : RawRecord) (s : String) (d : Nat) :
    (normalize raw s d).location = normalizeLocation (raw.location.getD "") := rfl

theorem normalize_url (raw : RawRecord) (s : String) (d : Nat) :
    (normalize raw s d).url = pyStrip (raw.url.getD "") := rfl

theorem normalize_summary (raw : RawRecord) (s : String) (d : Nat) :
    (normalize raw s d).summary
      = ⟨(cleanText (raw.summary.getD "")).data.take 500⟩ := rfl

theorem normalize_hash_id (raw : RawRecord) (s : String) (d : Nat) :
    (normalize raw s d).hash_id
      = computeHash (cleanText (raw.title.getD "Unknown"))
          (cleanText (raw.company.getD "Unknown"))
          (normalizeLocation (raw.location.getD ""))
          (pyStrip (raw.url.getD "")) := rfl

/-- Bounds of the clamp that score_job applies to the accumulated score. -/
theorem clamp05_bounds (s : Int) : 0 ≤ max 0 (min 5 s) ∧ max 0 (min 5 s) ≤ 5 :=
  ⟨le_max_left 0 _, max_le (by norm_num) (min_le_left 5 s)⟩

/-- C2: after score_job (and hence after score_all) the visa_score of every
listing lies in the closed interval from 0 to 5, however many signal phrases
of the hard-negative, soft-negative and positive tables fired. -/
theorem C2_visa_score_bounds :
    (∀ j : JobListing, 0 ≤ (scoreJob j).visa_score ∧ (scoreJob j).visa_score ≤ 5) ∧
    (∀ l : List JobListing, ∀ j ∈ scoreAll l, 0 ≤ j.visa_score ∧ j.visa_score ≤ 5) := by
  constructor
  · intro j
    exact clamp05_bounds _
  · intro l j hj
    rcases List.mem_map.mp hj with ⟨j0, _, rfl⟩
    exact clamp05_bounds _

/-- Concrete listing used by witnesses below: the strong graduate role with
a sponsorship summary from the spec scenario. -/
def sampleSponsor : JobListing :=
  mkJobListing "Adzuna" "Graduate Software Engineer" "Acme" "Melbourne"
    "https://x/1" 20251012 "visa sponsorship available" []

/-- Witness for C2 at a concrete listing, through the score_all part. -/
theorem C2_visa_score_bounds_witness :
    0 ≤ (scoreJob sampleSponsor).visa_score ∧ (scoreJob sampleSponsor).visa_score ≤ 5 :=
  C2_visa_score_bounds.2 [sampleSponsor] (scoreJob sampleSponsor) (by simp [scoreAll])

/-- C9: score_job changes only visa_score and visa_reason; source, title,
company, location, url, date_found, summary, tags and hash_id of the
returned listing are those of the input listing. -/
theorem C9_score_frame (j : JobListing) :
    (scoreJob j).source = j.source ∧ (scoreJob j).title = j.title ∧
    (scoreJob j).company = j.company ∧ (scoreJob j).location = j.location ∧
    (scoreJob j).url = j.url ∧ (scoreJob j).date_found = j.date_found ∧
    (scoreJob j).summary = j.summary ∧ (scoreJob j).tags = j.tags ∧
    (scoreJob j).hash_id = j.hash_id :=
  ⟨rfl, rfl, rfl, rfl, rfl, rfl, rfl, rfl, rfl⟩

/-- C10: scoring is idempotent; a second score_job recomputes the same
visa_score and visa_reason because only title and summary feed the
computation and score_job leaves them unchanged. -/
theorem C10_score_idempotent (j : JobListing) :
    (scoreJob (scoreJob j)).visa_score = (scoreJob j).visa_score ∧
    (scoreJob (scoreJob j)).visa_reason = (scoreJob j).visa_reason :=
  ⟨rfl, rfl⟩

/-- C8: normalize is total on records with missing keys; each missing field
is defaulted, the title and company to Unknown and location, url and summary
to the empty string. -/
theorem C8_normalize_defaults (raw : RawRecord) (source : String) (today : Nat) :
    (raw.title = none → (normalize raw source today).title = "Unknown") ∧
    (raw.company = none → (normalize raw source today).company = "Unknown") ∧
    (raw.location = none → (normalize raw source today).location = "") ∧
    (raw.url = none → (normalize raw source today).url = "") ∧
    (raw.summary = none → (normalize raw source today).summary = "") := by
  refine ⟨fun h => ?_, fun h => ?_, fun h => ?_, fun h => ?_, fun h => ?_⟩
  · rw [normalize_title, h]; rfl
  · rw [normalize_company, h]; rfl
  · rw [normalize_location_eq, h]; rfl
  · rw [normalize_url, h]; rfl
  · rw [normalize_summary, h]; rfl

/-- Witness for C8 at the fully empty raw record. -/
theorem C8_normalize_defaults_witness :
    (normalize {} "Seek" 0).title = "Unknown" ∧
    (normalize {} "Seek" 0).company = "Unknown" ∧
    (normalize {} "Seek" 0).location = "" ∧
    (normalize {} "Seek" 0).url = "" ∧
    (normalize {} "Seek" 0).summary = "" :=
  ⟨(C8_normalize_defaults {} "Seek" 0).1 rfl,
   (C8_normalize_defaults {} "Seek" 0).2.1 rfl,
   (C8_normalize_defaults {} "Seek" 0).2.2.1 rfl,
   (C8_normalize_defaults {} "Seek" 0).2.2.2.1 rfl,
   (C8_normalize_defaults {} "Seek" 0).2.2.2.2 rfl⟩

/-- Listing titled Undergraduate Research Assistant with no other IT or
level signal in its summary, from a standard (not pre-targeted) source. -/
def listingUndergrad : JobListing :=
  mkJobListing "Seek" "Undergraduate Research Assistant" "Uni" "Adelaide"
    "https://x/2" 20251012 "" []

/-- Listing titled Graduate Software Engineer from a standard source. -/
def listingGradSWE : JobListing :=
  mkJobListing "Seek" "Graduate Software Engineer" "Acme" "Melbourne"
    "https://x/1" 20251012 "" []

/-- C5: the relevance filter rejects the Undergraduate Research Assistant
listing and accepts the Graduate Software Engineer listing; level keywords
are matched with word boundaries, so the graduate keyword does not fire
inside the word undergraduate. -/
theorem C5_relevance_word_boundary :
    isRelevant listingUndergrad = false ∧ isRelevant listingGradSWE = true ∧
    (LEVEL_PATTERNS.any
      (fun p => wbSearch p none (pyLower listingUndergrad.title).data)) = false := by
  refine ⟨by decide, by decide, by decide⟩

/-- Listing whose title is a strong SWE match but whose summary mentions a
Flutter developer. -/
def listingFlutter : JobListing :=
  mkJobListing "Seek" "Graduate Software Engineer" "Acme" "Melbourne"
    "https://x/3" 20251012 "We are hiring a Flutter developer for our apps team" []

/-- C6: the resume-fit filter rejects a listing exactly when some entry of
the fixed exclusion table matches the lowered title-space-summary text; the
Flutter listing is rejected despite its strong SWE title, and the plain
Graduate Software Engineer listing, free of every excluded term, passes. -/
theorem C6_resume_fit_exclusion :
    (∀ j : JobListing, fitsResume j = false ↔
      ∃ p ∈ RESUME_HARD_EXCLUDE,
        wbSearch p none (pyLower (j.title ++ " " ++ j.summary)).data = true) ∧
    fitsResume listingFlutter = false ∧ fitsResume listingGradSWE = true := by
  refine ⟨fun j => ?_, by decide, by decide⟩
  simp [fitsResume, reFind, List.any_eq_true]

/-- Dropping twice with the same predicate drops once. -/
theorem dropWhile_idem {α : Type} (p : α → Bool) (l : List α) :
    (l.dropWhile p).dropWhile p = l.dropWhile p := by
  induction l with
  | nil => rfl
  | cons c t ih =>
    by_cases h : p c
    · simp [List.dropWhile_cons, h, ih]
    · simp [List.dropWhile_cons, h]

/-- The head surviving a dropWhile does not satisfy the predicate. -/
theorem dropWhile_head_not {α : Type} (p : α → Bool) :
    ∀ (l t : List α) (c : α), List.dropWhile p l = c :: t → p c = false := by
  intro l
  induction l with
  | nil => intro t c h; simp [List.dropWhile] at h
  | cons x xs ih =>
    intro t c h
    cases hx : p x
    · rw [List.dropWhile_cons, hx] at h
      simp at h
      exact h.1 ▸ hx
    · rw [List.dropWhile_cons, hx] at h
      simp at h
      exact ih t c h

/-- dropWhile cannot remove a final element failing the predicate. -/
theorem dropWhile_append_last {α : Type} (p : α → Bool) (c : α) (hc : p c = false) :
    ∀ xs : List α, ∃ s, List.dropWhile p (xs ++ [c]) = s ++ [c] := by
  intro xs
  induction xs with
  | nil => exact ⟨[], by simp [List.dropWhile_cons, hc]⟩
  | cons x t ih =>
    cases hx : p x
    · exact ⟨x :: t, by simp [List.dropWhile_cons, hx]⟩
    · simpa [List.dropWhile_cons, hx] using ih

/-- A stripped list has no leading whitespace left. -/
theorem stripL_no_leading (l : List Char) :
    (stripL l).dropWhile Char.isWhitespace = stripL l := by
  unfold stripL
  cases hmm : l.dropWhile Char.isWhitespace with
  | nil => simp
  | cons c t =>
    have hc : Char.isWhitespace c = false := dropWhile_head_not _ l t c hmm
    obtain ⟨s, hs⟩ := dropWhile_append_last Char.isWhitespace c hc t.reverse
    simp only [List.reverse_cons]
    rw [hs]
    simp [List.reverse_append, List.dropWhile_cons, hc]

/-- Stripping is idempotent. -/
theorem stripL_idem (l : List Char) : stripL (stripL l) = stripL l := by
  show (((stripL l).dropWhile Char.isWhitespace).reverse.dropWhile
      Char.isWhitespace).reverse = stripL l
  rw [stripL_no_leading]
  have h2 : (stripL l).reverse
      = (l.dropWhile Char.isWhitespace).reverse.dropWhile Char.isWhitespace := by
    unfold stripL
    rw [List.reverse_reverse]
  rw [h2, dropWhile_idem, ← h2, List.reverse_reverse]

/-- Python str.strip is idempotent. -/
theorem pyStrip_idem (s : String) : pyStrip (pyStrip s) = pyStrip s :=
  congrArg String.mk (stripL_idem s.data)

/-- computeHash on a url whose stripped lowered form is non-empty hashes
that form. -/
theorem computeHash_url (t c l url : String) (h : pyLower (pyStrip url) ≠ "") :
    computeHash t c l url = md5Hex (pyLower (pyStrip url)) := by
  unfold computeHash
  simp only [if_neg h]

/-- computeHash on a url whose stripped lowered form is empty hashes the
lowered title-company-location key. -/
theorem computeHash_fallback (t c l url : String) (h : pyLower (pyStrip url) = "") :
    computeHash t c l url = md5Hex (pyLower (t ++ "|" ++ c ++ "|" ++ l)) := by
  unfold computeHash
  simp only [if_pos h]

/-- C1: two raw records whose urls agree after stripping and lowering (and
are non-empty so that the url key is used) normalize to listings with equal
hash_id; two raw records whose urls are empty after stripping and whose
title, company and location agree also normalize to equal hash_id. -/
theorem C1_hash_determinism (r1 r2 : RawRecord) (s1 s2 : String) (d1 d2 : Nat) :
    (pyLower (pyStrip (r1.url.getD "")) = pyLower (pyStrip (r2.url.getD "")) →
      pyLower (pyStrip (r1.url.getD "")) ≠ "" →
      (normalize r1 s1 d1).hash_id = (normalize r2 s2 d2).hash_id) ∧
    (pyStrip (r1.url.getD "") = "" → pyStrip (r2.url.getD "") = "" →
      r1.title = r2.title → r1.company = r2.company → r1.location = r2.location →
      (normalize r1 s1 d1).hash_id = (normalize r2 s2 d2).hash_id) := by
  have i1 : pyLower (pyStrip (pyStrip (r1.url.getD "")))
      = pyLower (pyStrip (r1.url.getD "")) := by rw [pyStrip_idem]
  have i2 : pyLower (pyStrip (pyStrip (r2.url.getD "")))
      = pyLower (pyStrip (r2.url.getD "")) := by rw [pyStrip_idem]
  constructor
  · intro heq hne
    rw [normalize_hash_id, normalize_hash_id,
      computeHash_url _ _ _ _ (by rw [i1]; exact hne),
      computeHash_url _ _ _ _ (by rw [i2]; exact heq ▸ hne),
      i1, i2, heq]
  · intro h1 h2 ht hc hl
    rw [normalize_hash_id, normalize_hash_id,
      computeHash_fallback _ _ _ _ (by rw [h1]; rfl),
      computeHash_fallback _ _ _ _ (by rw [h2]; rfl),
      ht, hc, hl]

/-- Raw record with an upper-case url padded by whitespace. -/
def rawUrlLoud : RawRecord := { url := some "  HTTPS://X/1 " }

/-- Raw record with the same url already stripped and lowered. -/
def rawUrlQuiet : RawRecord := { url := some "https://x/1" }

/-- Raw record with a whitespace-only url and fixed title, company, location. -/
def rawNoUrlA : RawRecord :=
  { title := some "T", company := some "C", location := some "Adelaide", url := some "   " }

/-- Raw record with a missing url and the same title, company, location. -/
def rawNoUrlB : RawRecord :=
  { title := some "T", company := some "C", location := some "Adelaide" }

/-- Witness for C1 at concrete records, both the url branch and the
fallback branch. -/
theorem C1_hash_determinism_witness :
    (normalize rawUrlLoud "Seek" 1).hash_id = (normalize rawUrlQuiet "Adzuna" 2).hash_id ∧
    (normalize rawNoUrlA "Seek" 1).hash_id = (normalize rawNoUrlB "Adzuna" 2).hash_id :=
  ⟨(C1_hash_determinism rawUrlLoud rawUrlQuiet "Seek" "Adzuna" 1 2).1
      (by decide) (by decide),
   (C1_hash_determinism rawNoUrlA rawNoUrlB "Seek" "Adzuna" 1 2).2
      (by decide) (by decide) rfl rfl rfl⟩

/-- The session set only grows along the dedup loop. -/
theorem dedupLoop_session_mono (seen : List String) :
    ∀ (l : List JobListing) (session : List String) (k : String),
      k ∈ session → k ∈ (dedupLoop seen l session).2 := by
  intro l
  induction l with
  | nil => intro session k hk; exact hk
  | cons job rest ih =>
    intro session k hk
    by_cases h : job.hash_id ∈ seen ∨ job.hash_id ∈ session
    · have hstep : dedupLoop seen (job :: rest) session = dedupLoop seen rest session := by
        simp only [dedupLoop, if_pos h]
      rw [hstep]
      exact ih session k hk
    · have hstep : (dedupLoop seen (job :: rest) session).2
          = (dedupLoop seen rest (job.hash_id :: session)).2 := by
        simp only [dedupLoop, if_neg h]
      rw [hstep]
      exact ih _ k (List.mem_cons_of_mem _ hk)

/-- Every input hash ends up in the persisted set or in the final session. -/
theorem dedupLoop_covers (seen : List String) :
    ∀ (l : List JobListing) (session : List String) (job : JobListing),
      job ∈ l → job.hash_id ∈ seen ∨ job.hash_id ∈ (dedupLoop seen l session).2 := by
  intro l
  induction l with
  | nil => intro session job h; exact absurd h (List.not_mem_nil _)
  | cons j0 rest ih =>
    intro session job hmem
    by_cases h : j0.hash_id ∈ seen ∨ j0.hash_id ∈ session
    · have hstep : dedupLoop seen (j0 :: rest) session = dedupLoop seen rest session := by
        simp only [dedupLoop, if_pos h]
      rcases List.mem_cons.mp hmem with rfl | hmem2
      · rcases h with h | h
        · exact Or.inl h
        · exact Or.inr (hstep ▸ dedupLoop_session_mono seen rest session _ h)
      · exact hstep ▸ ih session job hmem2
    · have hstep : (dedupLoop seen (j0 :: rest) session).2
          = (dedupLoop seen rest (j0.hash_id :: session)).2 := by
        simp only [dedupLoop, if_neg h]
      rcases List.mem_cons.mp hmem with rfl | hmem2
      · exact Or.inr (hstep ▸
          dedupLoop_session_mono seen rest _ _ (List.mem_cons_self _ _))
      · exact hstep ▸ ih _ job hmem2

/-- When every hash of the input is already in the persisted set, the loop
keeps nothing. -/
theorem dedupLoop_all_seen (seen : List String) :
    ∀ (l : List JobListing) (session : List String),
      (∀ job ∈ l, job.hash_id ∈ seen) → (dedupLoop seen l session).1 = [] := by
  intro l
  induction l with
  | nil => intro session h; rfl
  | cons j0 rest ih =>
    intro session h
    have h0 : j0.hash_id ∈ seen := h j0 (List.mem_cons_self _ _)
    have hstep : dedupLoop seen (j0 :: rest) session = dedupLoop seen rest session := by
      simp only [dedupLoop, if_pos (Or.inl h0)]
    rw [hstep]
    exact ih session (fun job hj => h job (List.mem_cons_of_mem _ hj))

/-- When the input hashes are pairwise distinct and absent from both sets,
the loop keeps the whole input. -/
theorem dedupLoop_all_fresh (seen : List String) :
    ∀ (l : List JobListing) (session : List String),
      (∀ job ∈ l, job.hash_id ∉ seen ∧ job.hash_id ∉ session) →
      (l.map JobListing.hash_id).Nodup →
      (dedupLoop seen l session).1 = l := by
  intro l
  induction l with
  | nil => intro session h hn; rfl
  | cons j0 rest ih =>
    intro session h hn
    obtain ⟨h1, h2⟩ := h j0 (List.mem_cons_self _ _)
    have hcond : ¬ (j0.hash_id ∈ seen ∨ j0.hash_id ∈ session) := by
      rintro (hc | hc)
      · exact h1 hc
      · exact h2 hc
    have hstep : (dedupLoop seen (j0 :: rest) session).1
        = j0 :: (dedupLoop seen rest (j0.hash_id :: session)).1 := by
      simp only [dedupLoop, if_neg hcond]
    rw [hstep]
    have hnr : (rest.map JobListing.hash_id).Nodup := by
      simpa using (List.nodup_cons.mp (by simpa using hn)).2
    have hhead : j0.hash_id ∉ rest.map JobListing.hash_id :=
      (List.nodup_cons.mp (by simpa using hn)).1
    have hrest : ∀ job ∈ rest, job.hash_id ∉ seen ∧ job.hash_id ∉ j0.hash_id :: session := by
      intro job hj
      obtain ⟨hs, hss⟩ := h job (List.mem_cons_of_mem _ hj)
      refine ⟨hs, ?_⟩
      intro hmem
      rcases List.mem_cons.mp hmem with heq | hmem2
      · exact hhead (heq ▸ List.mem_map_of_mem JobListing.hash_id hj)
      · exact hss hmem2
    rw [ih _ hrest hnr]

/-- After one deduplicate call with persist, every input hash is contained
in the state the call leaves behind. -/
theorem deduplicate_covers (st : DedupState) (l : List JobListing) :
    ∀ job ∈ l, job.hash_id ∈ loadSeen (deduplicate st l true).2 := by
  intro job hj
  rcases dedupLoop_covers (loadSeen st) l [] job hj with h | h
  · by_cases hs : (dedupLoop (loadSeen st) l []).2 = []
    · have : (deduplicate st l true).2 = st := by
        simp [deduplicate, hs]
      rw [this]
      exact h
    · have : (deduplicate st l true).2
          = some (loadSeen st ++ (dedupLoop (loadSeen st) l []).2) := by
        simp [deduplicate, hs]
      rw [this]
      exact List.mem_append.mpr (Or.inl h)
  · have hs : (dedupLoop (loadSeen st) l []).2 ≠ [] := by
      intro hnil
      rw [hnil] at h
      exact List.not_mem_nil _ h
    have : (deduplicate st l true).2
        = some (loadSeen st ++ (dedupLoop (loadSeen st) l []).2) := by
      simp [deduplicate, hs]
    rw [this]
    exact List.mem_append.mpr (Or.inr h)

/-- C3 amended: a second deduplicate call with persist on the same input
always returns the empty list; the first call returns a non-empty list
provided the input is non-empty and none of its hashes is already in the
loaded state. -/
theorem C3_dedupe_idempotence (st : DedupState) (l : List JobListing) :
    ((deduplicate (deduplicate st l true).2 l true).1 = []) ∧
    (l ≠ [] → (∀ job ∈ l, job.hash_id ∉ loadSeen st) →
      (deduplicate st l true).1 ≠ []) := by
  constructor
  · exact dedupLoop_all_seen _ l [] (deduplicate_covers st l)
  · intro hne hfree
    obtain ⟨j0, rest, rfl⟩ := List.exists_cons_of_ne_nil hne
    have h0 : j0.hash_id ∉ loadSeen st := hfree j0 (List.mem_cons_self _ _)
    have hcond : ¬ (j0.hash_id ∈ loadSeen st ∨ j0.hash_id ∈ ([] : List String)) := by
      rintro (hc | hc)
      · exact h0 hc
      · exact List.not_mem_nil _ hc
    show (dedupLoop (loadSeen st) (j0 :: rest) []).1 ≠ []
    have hstep : (dedupLoop (loadSeen st) (j0 :: rest) []).1
        = j0 :: (dedupLoop (loadSeen st) rest [j0.hash_id]).1 := by
      simp only [dedupLoop, if_neg hcond]
    rw [hstep]
    exact List.cons_ne_nil _ _

/-- C3 as frozen is false at the empty input: the first deduplicate call
with persist already returns the empty, not a non-empty, list. -/
theorem C3_dedupe_idempotence_counterexample :
    (deduplicate none ([] : List JobListing) true).1 = [] := rfl

/-- Concrete listing with explicit hash h1, as the dataclass admits. -/
def jobH1 : JobListing :=
  { source := "Seek", title := "A", company := "B", location := "Adelaide",
    url := "https://x/1", date_found := 0, summary := "", tags := [],
    visa_score := -1, visa_reason := "", hash_id := "h1" }

/-- Concrete listing with explicit hash h2. -/
def jobH2 : JobListing :=
  { source := "Adzuna", title := "C", company := "D", location := "Melbourne",
    url := "https://x/2", date_found := 0, summary := "", tags := [],
    visa_score := -1, visa_reason := "", hash_id := "h2" }

/-- Witness for C3 amended at a concrete singleton input over virgin state. -/
theorem C3_dedupe_idempotence_witness :
    ((deduplicate (deduplicate none [jobH1] true).2 [jobH1] true).1 = []) ∧
    (deduplicate none [jobH1] true).1 ≠ [] :=
  ⟨(C3_dedupe_idempotence none [jobH1]).1,
   (C3_dedupe_idempotence none [jobH1]).2 (by decide) (by decide)⟩

/-- C4 amended: deduplicate after reset_state is the run against the absent
state file, which loads as the empty set (so the call is total and cannot
raise); it returns the full input as fresh exactly when the input hashes
are pairwise distinct. -/
theorem C4_reset_roundtrip (st : DedupState) (l : List JobListing) :
    deduplicate (resetState st) l true = deduplicate none l true ∧
    loadSeen (resetState st) = [] ∧
    ((l.map JobListing.hash_id).Nodup → (deduplicate (resetState st) l true).1 = l) := by
  refine ⟨rfl, rfl, ?_⟩
  intro hn
  show (dedupLoop [] l []).1 = l
  exact dedupLoop_all_fresh [] l []
    (fun job _ => ⟨List.not_mem_nil _, List.not_mem_nil _⟩) hn

/-- C4 as frozen is false on an input containing an internal duplicate:
after reset_state, deduplicate keeps only the first occurrence, not the
full input. -/
theorem C4_reset_roundtrip_counterexample :
    (deduplicate (resetState (some ["zzz"])) [jobH1, jobH1] true).1 = [jobH1] ∧
    (deduplicate (resetState (some ["zzz"])) [jobH1, jobH1] true).1 ≠ [jobH1, jobH1] := by
  constructor
  · decide
  · decide

/-- Witness for C4 amended at a concrete duplicate-free input. -/
theorem C4_reset_roundtrip_witness :
    (deduplicate (resetState (some ["zzz"])) [jobH1, jobH2] true).1 = [jobH1, jobH2] :=
  (C4_reset_roundtrip (some ["zzz"]) [jobH1, jobH2]).2.2 (by decide)

/-- First-match lookup projected to the canonical value is invariant under
permutation of the table when all matching entries agree on that value. -/
theorem find?_map_snd_perm {α β : Type} (p : α × β → Bool)
    (tbl tbl2 : List (α × β)) (hperm : tbl2.Perm tbl)
    (hagree : ∀ e1 ∈ tbl, ∀ e2 ∈ tbl, p e1 = true → p e2 = true → e1.2 = e2.2) :
    (tbl2.find? p).map Prod.snd = (tbl.find? p).map Prod.snd := by
  cases h : tbl.find? p with
  | none =>
    have hall : ∀ x ∈ tbl, ¬ p x = true := List.find?_eq_none.mp h
    have h2 : tbl2.find? p = none :=
      List.find?_eq_none.mpr (fun x hx => hall x (hperm.mem_iff.mp hx))
    rw [h2]
  | some e =>
    have he : p e = true := List.find?_some h
    have hem : e ∈ tbl := List.mem_of_find?_eq_some h
    have hsome : (tbl2.find? p).isSome :=
      List.find?_isSome.mpr ⟨e, hperm.mem_iff.mpr hem, he⟩
    cases h2 : tbl2.find? p with
    | none => rw [h2] at hsome; simp at hsome
    | some e2 =>
      have he2 : p e2 = true := List.find?_some h2
      have he2m : e2 ∈ tbl := hperm.mem_iff.mp (List.mem_of_find?_eq_some h2)
      simp [hagree e2 he2m e hem he2 he]

/-- C7 amended: the canonical location is independent of the ordering of
the alias table on every raw string whose matching aliases all map to one
canonical value; the given table does contain aliases that overlap
ambiguously, so full order independence fails (see the counterexample). -/
theorem C7_location_alias_order (tbl2 : List (String × String)) (raw : String)
    (hperm : tbl2.Perm LOCATION_MAP)
    (hagree : ∀ e1 ∈ LOCATION_MAP, ∀ e2 ∈ LOCATION_MAP,
      containsSub e1.1.data (pyLower (pyStrip raw)).data = true →
      containsSub e2.1.data (pyLower (pyStrip raw)).data = true → e1.2 = e2.2) :
    normalizeLocationWith tbl2 raw = normalizeLocationWith LOCATION_MAP raw := by
  have hmap := find?_map_snd_perm
    (fun e => containsSub e.1.data (pyLower (pyStrip raw)).data)
    LOCATION_MAP tbl2 hperm hagree
  cases h1 : tbl2.find? (fun e => containsSub e.1.data (pyLower (pyStrip raw)).data) with
  | none =>
    cases h2 : LOCATION_MAP.find?
        (fun e => containsSub e.1.data (pyLower (pyStrip raw)).data) with
    | none => simp only [normalizeLocationWith, h1, h2]
    | some e => rw [h1, h2] at hmap; simp at hmap
  | some e2 =>
    cases h2 : LOCATION_MAP.find?
        (fun e => containsSub e.1.data (pyLower (pyStrip raw)).data) with
    | none => rw [h1, h2] at hmap; simp at hmap
    | some e =>
      rw [h1, h2] at hmap
      simp only [Option.map_some', Option.some.injEq] at hmap
      simp only [normalizeLocationWith, h1, h2]
      exact hmap

/-- C7 as frozen is false for the given table: the raw location vic sa
matches both the sa alias (Adelaide) and the vic alias (Melbourne), so the
reversed table, a permutation of the given one, yields a different
canonical location. -/
theorem C7_location_alias_order_counterexample :
    (LOCATION_MAP.reverse).Perm LOCATION_MAP ∧
    normalizeLocationWith LOCATION_MAP "vic sa" = "Adelaide" ∧
    normalizeLocationWith LOCATION_MAP.reverse "vic sa" = "Melbourne" :=
  ⟨List.reverse_perm _, by decide, by decide⟩

/-- Witness for C7 amended: on the raw string adelaide only aliases mapping
to Adelaide match, and the reversed table gives the same canonical value. -/
theorem C7_location_alias_order_witness :
    normalizeLocationWith LOCATION_MAP.reverse "adelaide"
      = normalizeLocationWith LOCATION_MAP "adelaide" :=
  C7_location_alias_order LOCATION_MAP.reverse "adelaide"
    (List.reverse_perm _) (by decide)

end JobRadar

